import Mathlib

/-!
Shallow embedding of `custom_components/biketrax/__init__.py` from the
`homeassistant-biketrax` integration, together with proofs about its
config-entry migration, setup/unload lifecycle, background-task lifecycle
and entity base class.

Python dicts are embedded as ordered association lists with string keys
(`alookup` / `aset` / `apop` mirror indexing, key assignment and `pop`;
`dictMerge` mirrors `dict(base, **upd)`), because `list(d)` in the source
compares ordered key lists.
-/

set_option autoImplicit false

namespace BikeTrax

/-- Values stored in a config entry's `data` / `options` dicts: the
username and password are strings, the read-only flag is a boolean. -/
inductive Value where
  | str (s : String)
  | bool (b : Bool)
deriving DecidableEq, Repr

/-- Integration domain. The constant lives in `const.py`; only its use as
a distinct dict key matters here. -/
def DOMAIN : String := "biketrax"

/-- Key of the read-only flag (from `const.py`). -/
def CONF_READ_ONLY : String := "read_only"

/-- Key of the username (from `homeassistant.const`). -/
def CONF_USERNAME : String := "username"

/-- Key of the password (from `homeassistant.const`). -/
def CONF_PASSWORD : String := "password"

/-- Key of the device coordinator in the per-entry dict (from `const.py`). -/
def DATA_DEVICE : String := "device"

/-- Key of the trip coordinator in the per-entry dict (from `const.py`). -/
def DATA_TRIP : String := "trip"

/-- Key of the subscription coordinator in the per-entry dict (from
`const.py`). -/
def DATA_SUBSCRIPTION : String := "subscription"

/-- Python `d[key]` as an option: first binding of `key` in the list. -/
def alookup {α : Type} : List (String × α) → String → Option α
  | [], _ => none
  | kv :: rest, key => if kv.1 = key then some kv.2 else alookup rest key

/-- Python `list(d)`: the ordered key list of a dict. -/
def akeys {α : Type} (l : List (String × α)) : List String :=
  l.map Prod.fst

/-- Python `d[key] = v`: replace the binding in place when the key is
present, append it otherwise. -/
def aset {α : Type} : List (String × α) → String → α → List (String × α)
  | [], key, v => [(key, v)]
  | kv :: rest, key, v =>
    if kv.1 = key then (key, v) :: rest else kv :: aset rest key v

/-- Python `d.pop(key, default)` on the dict side: drop the binding of
`key` (a dict has at most one). -/
def apop {α : Type} : List (String × α) → String → List (String × α)
  | [], _ => []
  | kv :: rest, key =>
    if kv.1 = key then apop rest key else kv :: apop rest key

/-- Python `dict(base, **upd)`: values of `base` overridden by `upd`,
keys of `upd` not in `base` appended in `upd` order. -/
def dictMerge {α : Type} (base upd : List (String × α)) : List (String × α) :=
  base.map (fun kv => (kv.1, (alookup upd kv.1).getD kv.2))
    ++ upd.filter (fun kv => (alookup base kv.1).isNone)

/-- The `DEFAULT_OPTIONS` dict of the integration module. -/
def DEFAULT_OPTIONS : List (String × Value) :=
  [(CONF_READ_ONLY, Value.bool false)]

/-- A config entry: its id plus the persisted `data` and `options` dicts. -/
structure Entry where
  entryId : String
  data : List (String × Value)
  options : List (String × Value)
deriving DecidableEq, Repr

/-- Embedding of `_async_migrate_options_from_data_if_missing`. Returns
`some` of the updated entry when `async_update_entry` is called, `none`
when the guard fails and no update happens. -/
def migrateEntryOpt (e : Entry) : Option Entry :=
  if CONF_READ_ONLY ∈ akeys e.data ∨ akeys e.options ≠ akeys DEFAULT_OPTIONS then
    some { e with
      data := apop e.data CONF_READ_ONLY,
      options := aset (dictMerge DEFAULT_OPTIONS e.options) CONF_READ_ONLY
        ((alookup e.data CONF_READ_ONLY).getD (Value.bool false)) }
  else
    none

/-- The entry as left behind by the migration call. -/
def migrateEntry (e : Entry) : Entry :=
  (migrateEntryOpt e).getD e

theorem alookup_aset_self {α : Type} (l : List (String × α)) (k : String) (v : α) :
    alookup (aset l k v) k = some v := by
  induction l with
  | nil => simp [aset, alookup]
  | cons kv rest ih =>
    by_cases h : kv.1 = k <;> simp [aset, alookup, h, ih]

theorem alookup_aset_ne {α : Type} (l : List (String × α)) (k k' : String) (v : α)
    (h : k' ≠ k) : alookup (aset l k v) k' = alookup l k' := by
  induction l with
  | nil => simp [aset, alookup, Ne.symm h]
  | cons kv rest ih =>
    by_cases hh : kv.1 = k
    · simp [aset, alookup, hh, Ne.symm h]
    · simp [aset, alookup, hh, ih]

theorem alookup_apop_self {α : Type} (l : List (String × α)) (k : String) :
    alookup (apop l k) k = none := by
  induction l with
  | nil => simp [apop, alookup]
  | cons kv rest ih =>
    by_cases h : kv.1 = k <;> simp [apop, alookup, h, ih]

theorem alookup_apop_ne {α : Type} (l : List (String × α)) (k k' : String)
    (h : k' ≠ k) : alookup (apop l k) k' = alookup l k' := by
  induction l with
  | nil => simp [apop, alookup]
  | cons kv rest ih =>
    by_cases hh : kv.1 = k
    · simp [apop, alookup, hh, ih, Ne.symm h]
    · simp [apop, alookup, hh, ih]

theorem alookup_cons {α : Type} (kv : String × α) (rest : List (String × α))
    (k : String) :
    alookup (kv :: rest) k = if kv.1 = k then some kv.2 else alookup rest k := rfl

theorem akeys_cons {α : Type} (kv : String × α) (rest : List (String × α)) :
    akeys (kv :: rest) = kv.1 :: akeys rest := rfl

theorem mem_akeys_iff {α : Type} (l : List (String × α)) (k : String) :
    k ∈ akeys l ↔ (alookup l k).isSome := by
  induction l with
  | nil => simp [akeys, alookup]
  | cons kv rest ih =>
    rw [akeys_cons, alookup_cons, List.mem_cons]
    by_cases h : kv.1 = k
    · rw [if_pos h]
      exact iff_of_true (Or.inl h.symm) rfl
    · rw [if_neg h]
      constructor
      · intro hx
        rcases hx with hx | hx
        · exact absurd hx.symm h
        · exact ih.mp hx
      · intro hx
        exact Or.inr (ih.mpr hx)

theorem alookup_filter_not_default (opts : List (String × Value)) (k : String)
    (h : k ≠ CONF_READ_ONLY) :
    alookup (opts.filter (fun kv => (alookup DEFAULT_OPTIONS kv.1).isNone)) k
      = alookup opts k := by
  induction opts with
  | nil => simp
  | cons kv rest ih =>
    by_cases hk : kv.1 = CONF_READ_ONLY
    · have hp : (alookup DEFAULT_OPTIONS kv.1).isNone = false := by
        rw [hk]; rfl
      have hne : kv.1 ≠ k := fun hx => h (hx ▸ hk)
      rw [List.filter_cons, hp]
      simp only [Bool.false_eq_true, if_false]
      rw [ih, alookup_cons, if_neg hne]
    · have hcr : CONF_READ_ONLY ≠ kv.1 := fun hx => hk hx.symm
      have hp : (alookup DEFAULT_OPTIONS kv.1).isNone = true := by
        simp [DEFAULT_OPTIONS, alookup, hcr]
      rw [List.filter_cons, hp, if_pos rfl, alookup_cons, alookup_cons]
      by_cases hx : kv.1 = k
      · rw [if_pos hx, if_pos hx]
      · rw [if_neg hx, if_neg hx, ih]

theorem alookup_merge_default_ne (opts : List (String × Value)) (k : String)
    (h : k ≠ CONF_READ_ONLY) :
    alookup (dictMerge DEFAULT_OPTIONS opts) k = alookup opts k := by
  have hne : CONF_READ_ONLY ≠ k := fun hx => h hx.symm
  simp only [dictMerge, DEFAULT_OPTIONS, List.map_cons, List.map_nil,
    List.cons_append, List.nil_append, alookup, hne, if_false]
  exact alookup_filter_not_default opts k h

theorem migrateEntry_eq_self_of_none {e : Entry} (h : migrateEntryOpt e = none) :
    migrateEntry e = e := by
  simp [migrateEntry, h]

theorem migrateEntryOpt_none_of_shape (e : Entry)
    (h1 : alookup e.data CONF_READ_ONLY = none)
    (h2 : akeys e.options = [CONF_READ_ONLY]) : migrateEntryOpt e = none := by
  have hmem : CONF_READ_ONLY ∉ akeys e.data := by
    rw [mem_akeys_iff, h1]; simp
  have hkeys : akeys e.options = akeys DEFAULT_OPTIONS := by
    rw [h2]; rfl
  simp [migrateEntryOpt, hmem, hkeys]

theorem dictMerge_default_nil :
    dictMerge DEFAULT_OPTIONS ([] : List (String × Value))
      = [(CONF_READ_ONLY, Value.bool false)] := by
  simp [dictMerge, DEFAULT_OPTIONS, alookup]

theorem dictMerge_default_ro (w : Value) :
    dictMerge DEFAULT_OPTIONS [(CONF_READ_ONLY, w)] = [(CONF_READ_ONLY, w)] := by
  simp [dictMerge, DEFAULT_OPTIONS, alookup, List.filter_cons]

theorem aset_ro_singleton (x v : Value) :
    aset [(CONF_READ_ONLY, x)] CONF_READ_ONLY v = [(CONF_READ_ONLY, v)] := by
  simp [aset]

theorem alookup_eq_none_of_not_mem {α : Type} {l : List (String × α)} {k : String}
    (h : k ∉ akeys l) : alookup l k = none := by
  rw [mem_akeys_iff] at h
  exact Option.not_isSome_iff_eq_none.mp h

/-- Value the read-only flag holds in `entry.options` after the migration:
the value it had in `entry.data` when present there; otherwise the prior
options value when the options dict already had exactly the default key
list (the guard fails and nothing moves); otherwise `False`. -/
def migratedReadOnly (e : Entry) : Value :=
  match alookup e.data CONF_READ_ONLY with
  | some v => v
  | none =>
    if akeys e.options = akeys DEFAULT_OPTIONS then
      (alookup e.options CONF_READ_ONLY).getD (Value.bool false)
    else
      Value.bool false

/-- C1 (amended): after `_async_migrate_options_from_data_if_missing`,
`CONF_READ_ONLY` is absent from `entry.data` and present in
`entry.options`; its options value is the value the flag had in
`entry.data` when present there, the pre-existing options value when the
guard saw an already-default-shaped options dict, and `False` otherwise. -/
theorem migrate_read_only_placement (e : Entry) :
    alookup (migrateEntry e).data CONF_READ_ONLY = none
    ∧ CONF_READ_ONLY ∈ akeys (migrateEntry e).options
    ∧ alookup (migrateEntry e).options CONF_READ_ONLY = some (migratedReadOnly e) := by
  by_cases hg : CONF_READ_ONLY ∈ akeys e.data ∨ akeys e.options ≠ akeys DEFAULT_OPTIONS
  · have hme : migrateEntry e = { e with
        data := apop e.data CONF_READ_ONLY,
        options := aset (dictMerge DEFAULT_OPTIONS e.options) CONF_READ_ONLY
          ((alookup e.data CONF_READ_ONLY).getD (Value.bool false)) } := by
      simp [migrateEntry, migrateEntryOpt, hg]
    rw [hme]
    refine ⟨alookup_apop_self _ _, ?_, ?_⟩
    · rw [mem_akeys_iff, alookup_aset_self]
      rfl
    · rw [alookup_aset_self]
      cases hd : alookup e.data CONF_READ_ONLY with
      | some v =>
        rw [migratedReadOnly, hd]
        rfl
      | none =>
        have hne : akeys e.options ≠ akeys DEFAULT_OPTIONS := by
          rcases hg with hg | hg
          · rw [mem_akeys_iff, hd] at hg
            simp at hg
          · exact hg
        rw [migratedReadOnly, hd, if_neg hne]
        rfl
  · push_neg at hg
    obtain ⟨hg1, hg2⟩ := hg
    have hnone : migrateEntryOpt e = none := by
      simp [migrateEntryOpt, hg1, hg2]
    have hd : alookup e.data CONF_READ_ONLY = none := alookup_eq_none_of_not_mem hg1
    have hmem : CONF_READ_ONLY ∈ akeys e.options := by
      rw [hg2]
      exact List.mem_singleton.mpr rfl
    have hval : (alookup e.options CONF_READ_ONLY).isSome := (mem_akeys_iff _ _).mp hmem
    rw [migrateEntry_eq_self_of_none hnone]
    refine ⟨hd, hmem, ?_⟩
    rw [migratedReadOnly, hd, if_pos hg2]
    cases ho : alookup e.options CONF_READ_ONLY with
    | none => rw [ho] at hval; simp at hval
    | some v => rfl

/-- Entry on which the literal C1 claim fails: the flag is absent from
`data`, options already have the default shape with the flag `True`, so
the migration is a no-op and the flag does not become `False`. -/
def entryReadOnlyKept : Entry :=
  ⟨"entry1", [(CONF_USERNAME, Value.str "u"), (CONF_PASSWORD, Value.str "p")],
   [(CONF_READ_ONLY, Value.bool true)]⟩

/-- C1 counterexample: at `entryReadOnlyKept` the migrated options value
of `CONF_READ_ONLY` is not the value the flag had in `entry.data`
(`False` when absent), refuting the claim as stated. -/
theorem migrate_read_only_claim_counterexample :
    ¬ (alookup (migrateEntry entryReadOnlyKept).options CONF_READ_ONLY
        = some ((alookup entryReadOnlyKept.data CONF_READ_ONLY).getD (Value.bool false))) := by
  decide

theorem migrate_lookup_ne (e : Entry) (k : String)
    (hk : k ≠ CONF_READ_ONLY) :
    alookup (migrateEntry e).data k = alookup e.data k
    ∧ alookup (migrateEntry e).options k = alookup e.options k := by
  by_cases hg : CONF_READ_ONLY ∈ akeys e.data ∨ akeys e.options ≠ akeys DEFAULT_OPTIONS
  · have hme : migrateEntry e = { e with
        data := apop e.data CONF_READ_ONLY,
        options := aset (dictMerge DEFAULT_OPTIONS e.options) CONF_READ_ONLY
          ((alookup e.data CONF_READ_ONLY).getD (Value.bool false)) } := by
      simp [migrateEntry, migrateEntryOpt, hg]
    rw [hme]
    constructor
    · exact alookup_apop_ne _ _ _ hk
    · rw [alookup_aset_ne _ _ _ _ hk]
      exact alookup_merge_default_ne _ _ hk
  · have hnone : migrateEntryOpt e = none := by
      push_neg at hg
      simp [migrateEntryOpt, hg.1, hg.2]
    rw [migrateEntry_eq_self_of_none hnone]
    exact ⟨rfl, rfl⟩

/-- C9: the migration only moves the read-only flag; every other key of
`entry.data` (username and password included) and every other key of
`entry.options` keeps its value. -/
theorem migrate_preserves_other_keys (e : Entry) (k : String)
    (hk : k ≠ CONF_READ_ONLY) :
    alookup (migrateEntry e).data k = alookup e.data k
    ∧ alookup (migrateEntry e).options k = alookup e.options k :=
  migrate_lookup_ne e k hk

/-- Concrete input for the C9 frame theorem. -/
def entryFrameW : Entry :=
  ⟨"w9", [(CONF_USERNAME, Value.str "alice"), (CONF_READ_ONLY, Value.bool true)], []⟩

/-- C9 witness at a concrete entry and the username key. -/
theorem migrate_preserves_other_keys_witness :
    alookup (migrateEntry entryFrameW).data CONF_USERNAME
      = alookup entryFrameW.data CONF_USERNAME
    ∧ alookup (migrateEntry entryFrameW).options CONF_USERNAME
      = alookup entryFrameW.options CONF_USERNAME :=
  migrate_preserves_other_keys entryFrameW CONF_USERNAME (by decide)

/-- C8 (amended): running the migration twice is the same as running it
once for every entry whose options dict has no key besides
`CONF_READ_ONLY`; and when the flag is absent from `entry.data` and the
options key list equals that of `DEFAULT_OPTIONS`, no config-entry update
is performed at all. -/
theorem migrate_second_run_amended :
    (∀ e : Entry, (akeys e.options = [] ∨ akeys e.options = [CONF_READ_ONLY]) →
      migrateEntry (migrateEntry e) = migrateEntry e)
    ∧ (∀ e : Entry, alookup e.data CONF_READ_ONLY = none →
      akeys e.options = akeys DEFAULT_OPTIONS → migrateEntryOpt e = none) := by
  constructor
  · intro e hshape
    rcases hshape with h0 | h1
    · have hopts : e.options = [] := List.map_eq_nil_iff.mp h0
      have hg : CONF_READ_ONLY ∈ akeys e.data ∨ akeys e.options ≠ akeys DEFAULT_OPTIONS := by
        right
        rw [h0]
        simp [DEFAULT_OPTIONS, akeys]
      have hme : migrateEntry e = { e with
          data := apop e.data CONF_READ_ONLY,
          options := [(CONF_READ_ONLY,
            (alookup e.data CONF_READ_ONLY).getD (Value.bool false))] } := by
        rw [migrateEntry, migrateEntryOpt, if_pos hg, hopts, dictMerge_default_nil,
          aset_ro_singleton]
        rfl
      rw [hme]
      exact migrateEntry_eq_self_of_none
        (migrateEntryOpt_none_of_shape _ (alookup_apop_self _ _) rfl)
    · cases hopt : e.options with
      | nil =>
        rw [hopt] at h1
        simp [akeys] at h1
      | cons kv rest =>
        rw [hopt, akeys_cons] at h1
        injection h1 with hk1 h2
        have hrest : rest = [] := List.map_eq_nil_iff.mp h2
        subst hrest
        by_cases hmem : CONF_READ_ONLY ∈ akeys e.data
        · have hg : CONF_READ_ONLY ∈ akeys e.data
              ∨ akeys e.options ≠ akeys DEFAULT_OPTIONS := Or.inl hmem
          have hkv : kv = (CONF_READ_ONLY, kv.2) := by
            rw [← hk1]
          have hme : migrateEntry e = { e with
              data := apop e.data CONF_READ_ONLY,
              options := [(CONF_READ_ONLY,
                (alookup e.data CONF_READ_ONLY).getD (Value.bool false))] } := by
            rw [migrateEntry, migrateEntryOpt, if_pos hg]
            rw [hopt, hkv, dictMerge_default_ro, aset_ro_singleton]
            rfl
          rw [hme]
          exact migrateEntry_eq_self_of_none
            (migrateEntryOpt_none_of_shape _ (alookup_apop_self _ _) rfl)
        · have hnone : migrateEntryOpt e = none := by
            apply migrateEntryOpt_none_of_shape e (alookup_eq_none_of_not_mem hmem)
            rw [hopt, akeys_cons, hk1, h2]
          rw [migrateEntry_eq_self_of_none hnone, migrateEntry_eq_self_of_none hnone]
  · intro e h1 h2
    apply migrateEntryOpt_none_of_shape e h1
    exact h2.trans rfl

/-- Entry on which the literal C8 idempotence claim fails: options carry
an extra key, so the guard fires again on the second run and resets the
migrated flag to `False`. -/
def entryNotIdem : Entry :=
  ⟨"e8", [(CONF_READ_ONLY, Value.bool true)], [("foo", Value.str "x")]⟩

/-- C8 counterexample: a second migration run changes the entry that the
first run produced. -/
theorem migrate_not_idempotent :
    migrateEntry (migrateEntry entryNotIdem) ≠ migrateEntry entryNotIdem := by
  decide

/-- Concrete input for the no-update half of the amended C8. -/
def entryNoUpdateW : Entry :=
  ⟨"w8", [(CONF_USERNAME, Value.str "u")], [(CONF_READ_ONLY, Value.bool false)]⟩

/-- Concrete input for the idempotence half of the amended C8. -/
def entryIdemW : Entry :=
  ⟨"w8b", [(CONF_READ_ONLY, Value.bool true)], []⟩

/-- C8 witness: the amended theorem applied at concrete entries. -/
theorem migrate_second_run_amended_witness :
    migrateEntry (migrateEntry entryIdemW) = migrateEntry entryIdemW
    ∧ migrateEntryOpt entryNoUpdateW = none :=
  ⟨migrate_second_run_amended.1 entryIdemW (Or.inl (by decide)),
   migrate_second_run_amended.2 entryNoUpdateW (by decide) (by decide)⟩

/-- Entity platforms of the host framework (the `Platform` enum); only
the constructors relevant to this integration plus a sample of the other
available platforms are listed. -/
inductive Platform where
  | binarySensor
  | deviceTracker
  | sensor
  | switch
  | button
  | camera
  | climate
  | cover
  | fan
  | light
  | lock
  | number
  | siren
deriving DecidableEq, Repr

/-- The `PLATFORMS` list of the integration module. -/
def PLATFORMS : List Platform :=
  [Platform.binarySensor, Platform.deviceTracker, Platform.sensor, Platform.switch]

/-- Vendor SDK account handle, as constructed in `async_setup_entry` from
the entry's stored username and password (the aiohttp session argument is
host plumbing and carries no data of its own). -/
structure Account where
  username : Value
  password : Value
deriving DecidableEq, Repr

/-- The three coordinator flavours set up per entry. -/
inductive CoordKind where
  | device
  | trip
  | subscription
deriving DecidableEq, Repr

/-- A coordinator as constructed in `async_setup_entry`: its flavour plus
the constructor arguments recorded at the call site (the shared account
and the config entry it serves). -/
structure Coordinator where
  kind : CoordKind
  account : Account
  entryId : String
deriving DecidableEq, Repr

/-- Observable calls `async_setup_entry` / `async_unload_entry` make into
the vendor SDK and the host framework. -/
inductive Effect where
  | createAccount (a : Account)
  | firstRefresh (k : CoordKind)
  | startTask (entryId : String)
  | listenStop (entryId : String)
  | setupPlatformsFor (ps : List Platform)
  | unloadPlatformsFor (ps : List Platform)
  | stopTask (entryId : String)
deriving DecidableEq, Repr

/-- The account created by a `createAccount` effect, if any. -/
def accountOfEffect : Effect → Option Account
  | Effect.createAccount a => some a
  | _ => none

/-- The platform list registered by a `setupPlatformsFor` effect, if any. -/
def platformsOfEffect : Effect → Option (List Platform)
  | Effect.setupPlatformsFor ps => some ps
  | _ => none

/-- Host state the integration touches: `hass.data` (domain, then entry
id, then the per-entry coordinator dict), which push-update background
tasks are running (one flag per device coordinator, keyed by its entry;
modelled from the spec: the task internals live in `coordinator.py`,
outside this module, with a start/stop contract only), and which
`EVENT_HOMEASSISTANT_STOP` listeners are registered. -/
structure HassState where
  hassData : List (String × List (String × List (String × Coordinator)))
  runningTasks : List String
  stopListeners : List String
deriving DecidableEq, Repr

/-- State of a host with no integration data. -/
def emptyHass : HassState := ⟨[], [], []⟩

/-- The per-entry coordinator dict stored in `hass.data[DOMAIN]`. -/
def coordDictFor (a : Account) (id : String) : List (String × Coordinator) :=
  [(DATA_DEVICE, ⟨CoordKind.device, a, id⟩),
   (DATA_TRIP, ⟨CoordKind.trip, a, id⟩),
   (DATA_SUBSCRIPTION, ⟨CoordKind.subscription, a, id⟩)]

/-- Errors `async_setup_entry` can propagate: a missing credential key
(`KeyError` on `entry.data[...]`) or a failing first refresh
(`ConfigEntryNotReady`). -/
inductive SetupError where
  | missingCredential
  | refreshFailed (k : CoordKind)
deriving DecidableEq, Repr

/-- Host state after a successful `async_setup_entry`: the coordinator
dict is stored under `hass.data[DOMAIN][entry_id]` (`setdefault` creates
the domain dict), the push background task is running, and a stop
listener for `EVENT_HOMEASSISTANT_STOP` is registered. -/
def setupState (s : HassState) (e : Entry) (u p : Value) : HassState :=
  { hassData := aset s.hassData DOMAIN
      (aset ((alookup s.hassData DOMAIN).getD []) e.entryId
        (coordDictFor ⟨u, p⟩ e.entryId)),
    runningTasks :=
      if e.entryId ∈ s.runningTasks then s.runningTasks
      else e.entryId :: s.runningTasks,
    stopListeners :=
      if e.entryId ∈ s.stopListeners then s.stopListeners
      else e.entryId :: s.stopListeners }

/-- Effect trace of a successful `async_setup_entry`, in call order. -/
def setupTrace (e : Entry) (u p : Value) : List Effect :=
  [Effect.createAccount ⟨u, p⟩,
   Effect.firstRefresh CoordKind.device,
   Effect.firstRefresh CoordKind.trip,
   Effect.firstRefresh CoordKind.subscription,
   Effect.startTask e.entryId,
   Effect.listenStop e.entryId,
   Effect.setupPlatformsFor PLATFORMS]

/-- Embedding of `async_setup_entry`. The three booleans are the outcomes
of the coordinators' `async_config_entry_first_refresh` calls, which all
happen before any state is mutated; on an error the host state is
unchanged. The entry is migrated first, so the credentials are read from
the migrated `entry.data`. Returns the new host state and the effect
trace. -/
def setupEntry (s : HassState) (e : Entry) (rd rt rs : Bool) :
    Except SetupError (HassState × List Effect) :=
  match alookup (migrateEntry e).data CONF_USERNAME,
        alookup (migrateEntry e).data CONF_PASSWORD with
  | some u, some p =>
    match rd, rt, rs with
    | true, true, true => Except.ok (setupState s e u p, setupTrace e u p)
    | false, _, _ => Except.error (SetupError.refreshFailed CoordKind.device)
    | true, false, _ => Except.error (SetupError.refreshFailed CoordKind.trip)
    | true, true, false => Except.error (SetupError.refreshFailed CoordKind.subscription)
  | none, _ => Except.error SetupError.missingCredential
  | some _, none => Except.error SetupError.missingCredential

/-- Embedding of `async_unload_entry`. `platformsOk` is the result of the
host's `async_unload_platforms`. A `KeyError` (domain or entry missing
from `hass.data`, or `DATA_DEVICE` missing from the per-entry dict)
propagates as `Except.error`, carrying the state at the raise point:
`hass.data[DOMAIN].pop(...)` runs before `coordinators[DATA_DEVICE]` is
read. -/
def unloadEntry (s : HassState) (entryId : String) (platformsOk : Bool) :
    Except (HassState × List Effect) (Bool × HassState × List Effect) :=
  match platformsOk with
  | false => Except.ok (false, s, [Effect.unloadPlatformsFor PLATFORMS])
  | true =>
    match alookup s.hassData DOMAIN with
    | none => Except.error (s, [Effect.unloadPlatformsFor PLATFORMS])
    | some domainMap =>
      match alookup domainMap entryId with
      | none => Except.error (s, [Effect.unloadPlatformsFor PLATFORMS])
      | some coords =>
        match alookup coords DATA_DEVICE with
        | none =>
          Except.error
            ({ s with hassData := aset s.hassData DOMAIN (apop domainMap entryId) },
             [Effect.unloadPlatformsFor PLATFORMS])
        | some c =>
          Except.ok (true,
            { s with
              hassData := aset s.hassData DOMAIN (apop domainMap entryId),
              runningTasks := s.runningTasks.filter (fun id => id ≠ c.entryId) },
            [Effect.unloadPlatformsFor PLATFORMS, Effect.stopTask c.entryId])

/-- Firing of `EVENT_HOMEASSISTANT_STOP`: every registered listener stops
the device coordinator background task of its entry. -/
def shutdownEvent (s : HassState) : HassState × List Effect :=
  ({ s with runningTasks :=
      s.runningTasks.filter (fun id => id ∉ s.stopListeners) },
   s.stopListeners.map Effect.stopTask)

/-- Lifecycle operations the host can invoke on the integration. -/
inductive Op where
  | setup (e : Entry) (rd rt rs : Bool)
  | unload (entryId : String) (platformsOk : Bool)
  | shutdown
deriving DecidableEq, Repr

/-- Host state after one lifecycle operation (a propagated exception
leaves behind the state at the raise point). -/
def step (s : HassState) : Op → HassState
  | Op.setup e rd rt rs =>
    match setupEntry s e rd rt rs with
    | Except.ok (s1, _) => s1
    | Except.error _ => s
  | Op.unload id ok =>
    match unloadEntry s id ok with
    | Except.ok (_, s1, _) => s1
    | Except.error (s1, _) => s1
  | Op.shutdown => (shutdownEvent s).1

/-- Host state after a sequence of lifecycle operations. -/
def runOps (s : HassState) (ops : List Op) : HassState :=
  ops.foldl step s

/-- Coordinator dict stored for `id`, read through `hass.data[DOMAIN]`. -/
def entryMapAt (s : HassState) (id : String) : Option (List (String × Coordinator)) :=
  alookup ((alookup s.hassData DOMAIN).getD []) id

/-- Device coordinator stored for `id` in `hass.data[DOMAIN]`. -/
def deviceCoordAt (s : HassState) (id : String) : Option Coordinator :=
  match entryMapAt s id with
  | some m => alookup m DATA_DEVICE
  | none => none

theorem setupEntry_ok {s : HassState} {e : Entry} {rd rt rs : Bool}
    {s1 : HassState} {tr : List Effect}
    (h : setupEntry s e rd rt rs = Except.ok (s1, tr)) :
    ∃ u p,
      alookup (migrateEntry e).data CONF_USERNAME = some u
      ∧ alookup (migrateEntry e).data CONF_PASSWORD = some p
      ∧ s1 = setupState s e u p ∧ tr = setupTrace e u p := by
  unfold setupEntry at h
  cases hu : alookup (migrateEntry e).data CONF_USERNAME with
  | none =>
    rw [hu] at h
    cases hp : alookup (migrateEntry e).data CONF_PASSWORD <;> rw [hp] at h <;>
      exact absurd h (by simp)
  | some u =>
    rw [hu] at h
    cases hp : alookup (migrateEntry e).data CONF_PASSWORD with
    | none =>
      rw [hp] at h
      exact absurd h (by simp)
    | some p =>
      rw [hp] at h
      cases rd <;> cases rt <;> cases rs <;> simp only [] at h <;>
        first
        | exact Except.noConfusion h
        | (simp only [Except.ok.injEq, Prod.mk.injEq] at h
           exact ⟨u, p, rfl, rfl, h.1.symm, h.2.symm⟩)

theorem entryMapAt_setupState (s : HassState) (e : Entry) (u p : Value) (id : String) :
    entryMapAt (setupState s e u p) id =
      if id = e.entryId then some (coordDictFor ⟨u, p⟩ e.entryId)
      else entryMapAt s id := by
  unfold entryMapAt setupState
  simp only [alookup_aset_self, Option.getD_some]
  by_cases hid : id = e.entryId
  · subst hid
    rw [alookup_aset_self, if_pos rfl]
  · rw [alookup_aset_ne _ _ _ _ hid, if_neg hid]

theorem deviceCoordAt_setupState (s : HassState) (e : Entry) (u p : Value) (id : String) :
    deviceCoordAt (setupState s e u p) id =
      if id = e.entryId then some ⟨CoordKind.device, ⟨u, p⟩, e.entryId⟩
      else deviceCoordAt s id := by
  unfold deviceCoordAt
  rw [entryMapAt_setupState]
  by_cases hid : id = e.entryId
  · rw [if_pos hid, if_pos hid]
    rfl
  · rw [if_neg hid, if_neg hid]

theorem unloadEntry_ok_of {s : HassState} {dm : List (String × List (String × Coordinator))}
    {coords : List (String × Coordinator)} {c : Coordinator} {id : String}
    (hd : alookup s.hassData DOMAIN = some dm)
    (he : alookup dm id = some coords)
    (hc : alookup coords DATA_DEVICE = some c) :
    unloadEntry s id true = Except.ok (true,
      { s with
        hassData := aset s.hassData DOMAIN (apop dm id),
        runningTasks := s.runningTasks.filter (fun i => i ≠ c.entryId) },
      [Effect.unloadPlatformsFor PLATFORMS, Effect.stopTask c.entryId]) := by
  unfold unloadEntry
  simp only [hd, he, hc]

theorem entryMapAt_pop_state {s : HassState} {dm : List (String × List (String × Coordinator))}
    (hd : alookup s.hassData DOMAIN = some dm) (id id' : String)
    (rt sl : List String) :
    entryMapAt ⟨aset s.hassData DOMAIN (apop dm id), rt, sl⟩ id' =
      if id' = id then none else entryMapAt s id' := by
  unfold entryMapAt
  simp only [alookup_aset_self, Option.getD_some, hd]
  by_cases hid : id' = id
  · rw [if_pos hid, hid, alookup_apop_self]
  · rw [if_neg hid, alookup_apop_ne _ _ _ hid]

/-- Invariant tying the background-task flags to the rest of the state:
every running task belongs to an entry with a registered stop listener
and a stored device coordinator, and every stored device coordinator
serves the entry it is stored under. -/
def taskInv (s : HassState) : Prop :=
  (∀ id, id ∈ s.runningTasks → id ∈ s.stopListeners ∧ (deviceCoordAt s id).isSome)
  ∧ (∀ id c, deviceCoordAt s id = some c → c.entryId = id)

theorem taskInv_empty : taskInv emptyHass := by
  constructor
  · intro id hid
    simp [emptyHass] at hid
  · intro id c hc
    simp [deviceCoordAt, entryMapAt, emptyHass, alookup] at hc

theorem taskInv_setupState (s : HassState) (e : Entry) (u p : Value)
    (h : taskInv s) : taskInv (setupState s e u p) := by
  constructor
  · intro id hid
    have hid' : id = e.entryId ∨ id ∈ s.runningTasks := by
      revert hid
      simp only [setupState]
      by_cases hm : e.entryId ∈ s.runningTasks
      · rw [if_pos hm]
        exact Or.inr
      · rw [if_neg hm]
        exact List.mem_cons.mp
    refine ⟨?_, ?_⟩
    · show id ∈ (setupState s e u p).stopListeners
      simp only [setupState]
      have hls : id = e.entryId ∨ id ∈ s.stopListeners := by
        rcases hid' with heq | hmem
        · exact Or.inl heq
        · exact Or.inr (h.1 id hmem).1
      by_cases hl : e.entryId ∈ s.stopListeners
      · rw [if_pos hl]
        rcases hls with heq | hm
        · rw [heq]
          exact hl
        · exact hm
      · rw [if_neg hl]
        rcases hls with heq | hm
        · rw [heq]
          exact List.mem_cons_self _ _
        · exact List.mem_cons_of_mem _ hm
    · rw [deviceCoordAt_setupState]
      by_cases hx : id = e.entryId
      · rw [if_pos hx]
        rfl
      · rw [if_neg hx]
        rcases hid' with heq | hmem
        · exact absurd heq hx
        · exact (h.1 id hmem).2
  · intro id c hc
    rw [deviceCoordAt_setupState] at hc
    by_cases hx : id = e.entryId
    · rw [if_pos hx] at hc
      injection hc with hc
      rw [← hc]
      exact hx.symm
    · rw [if_neg hx] at hc
      exact h.2 id c hc

theorem taskInv_step (s : HassState) (op : Op) (h : taskInv s) :
    taskInv (step s op) := by
  cases op with
  | setup e rd rt rs =>
    cases hs : setupEntry s e rd rt rs with
    | error err =>
      simpa [step, hs] using h
    | ok pr =>
      obtain ⟨s1, tr⟩ := pr
      obtain ⟨u, p, hu, hp, hst, htr⟩ := setupEntry_ok hs
      have hstep : step s (Op.setup e rd rt rs) = s1 := by
        simp [step, hs]
      rw [hstep, hst]
      exact taskInv_setupState s e u p h
  | unload id ok =>
    cases ok with
    | false =>
      have hstep : step s (Op.unload id false) = s := by
        simp [step, unloadEntry]
      rw [hstep]
      exact h
    | true =>
      cases hd : alookup s.hassData DOMAIN with
      | none =>
        have hstep : step s (Op.unload id true) = s := by
          simp [step, unloadEntry, hd]
        rw [hstep]
        exact h
      | some dm =>
        cases he : alookup dm id with
        | none =>
          have hstep : step s (Op.unload id true) = s := by
            simp [step, unloadEntry, hd, he]
          rw [hstep]
          exact h
        | some coords =>
          cases hc : alookup coords DATA_DEVICE with
          | none =>
            have hstep : step s (Op.unload id true)
                = { s with hassData := aset s.hassData DOMAIN (apop dm id) } := by
              simp [step, unloadEntry, hd, he, hc]
            have hnone : deviceCoordAt s id = none := by
              unfold deviceCoordAt entryMapAt
              rw [hd]
              simp only [Option.getD_some, he]
              exact hc
            rw [hstep]
            constructor
            · intro id' hid'
              have hid'' : id' ∈ s.runningTasks := hid'
              have hni : id' ≠ id := by
                intro hEq
                have hsome := (h.1 id' hid'').2
                rw [hEq, hnone] at hsome
                exact Bool.noConfusion hsome
              refine ⟨(h.1 id' hid'').1, ?_⟩
              unfold deviceCoordAt
              rw [entryMapAt_pop_state hd, if_neg hni]
              exact (h.1 id' hid'').2
            · intro id' c' hc'
              unfold deviceCoordAt at hc'
              rw [entryMapAt_pop_state hd] at hc'
              by_cases hni : id' = id
              · rw [if_pos hni] at hc'
                exact Option.noConfusion hc'
              · rw [if_neg hni] at hc'
                exact h.2 id' c' hc'
          | some c =>
            have hcid : c.entryId = id := h.2 id c (by
              unfold deviceCoordAt entryMapAt
              rw [hd]
              simp only [Option.getD_some, he]
              exact hc)
            have hstep : step s (Op.unload id true) = { s with
                hassData := aset s.hassData DOMAIN (apop dm id),
                runningTasks := s.runningTasks.filter (fun i => i ≠ c.entryId) } := by
              simp [step, unloadEntry_ok_of hd he hc]
            rw [hstep]
            constructor
            · intro id' hid'
              have hmem := List.mem_filter.mp hid'
              have hid'' : id' ∈ s.runningTasks := hmem.1
              have hne : id' ≠ c.entryId := by simpa using hmem.2
              have hni : id' ≠ id := hcid ▸ hne
              refine ⟨(h.1 id' hid'').1, ?_⟩
              unfold deviceCoordAt
              rw [entryMapAt_pop_state hd, if_neg hni]
              exact (h.1 id' hid'').2
            · intro id' c' hc'
              unfold deviceCoordAt at hc'
              rw [entryMapAt_pop_state hd] at hc'
              by_cases hni : id' = id
              · rw [if_pos hni] at hc'
                exact Option.noConfusion hc'
              · rw [if_neg hni] at hc'
                exact h.2 id' c' hc'
  | shutdown =>
    constructor
    · intro id hid
      have hid' := List.mem_filter.mp hid
      exact ⟨(h.1 id hid'.1).1, (h.1 id hid'.1).2⟩
    · intro id c hc
      exact h.2 id c hc

theorem taskInv_runOps (s : HassState) (ops : List Op) (h : taskInv s) :
    taskInv (runOps s ops) := by
  induction ops generalizing s with
  | nil => exact h
  | cons op ops ih => exact ih (step s op) (taskInv_step s op h)

theorem not_running_after_unload (s : HassState) (h : taskInv s) (id : String) :
    id ∉ (step s (Op.unload id true)).runningTasks := by
  cases hd : alookup s.hassData DOMAIN with
  | none =>
    have hstep : step s (Op.unload id true) = s := by
      simp [step, unloadEntry, hd]
    rw [hstep]
    intro hmem
    have hsome := (h.1 id hmem).2
    unfold deviceCoordAt entryMapAt at hsome
    rw [hd] at hsome
    simp [alookup] at hsome
  | some dm =>
    cases he : alookup dm id with
    | none =>
      have hstep : step s (Op.unload id true) = s := by
        simp [step, unloadEntry, hd, he]
      rw [hstep]
      intro hmem
      have hsome := (h.1 id hmem).2
      unfold deviceCoordAt entryMapAt at hsome
      rw [hd] at hsome
      simp only [Option.getD_some, he] at hsome
      exact Bool.noConfusion hsome
    | some coords =>
      cases hc : alookup coords DATA_DEVICE with
      | none =>
        have hstep : step s (Op.unload id true)
            = { s with hassData := aset s.hassData DOMAIN (apop dm id) } := by
          simp [step, unloadEntry, hd, he, hc]
        rw [hstep]
        intro hmem
        have hmem' : id ∈ s.runningTasks := hmem
        have hsome := (h.1 id hmem').2
        unfold deviceCoordAt entryMapAt at hsome
        rw [hd] at hsome
        simp only [Option.getD_some, he, hc] at hsome
        exact Bool.noConfusion hsome
      | some c =>
        have hcid : c.entryId = id := h.2 id c (by
          unfold deviceCoordAt entryMapAt
          rw [hd]
          simp only [Option.getD_some, he]
          exact hc)
        have hstep : step s (Op.unload id true) = { s with
            hassData := aset s.hassData DOMAIN (apop dm id),
            runningTasks := s.runningTasks.filter (fun i => i ≠ c.entryId) } := by
          simp [step, unloadEntry_ok_of hd he hc]
        rw [hstep]
        intro hmem
        have hne : id ≠ c.entryId := by simpa using (List.mem_filter.mp hmem).2
        exact hne hcid.symm

theorem no_task_after_shutdown (s : HassState) (h : taskInv s) :
    (step s Op.shutdown).runningTasks = [] := by
  have hstep : (step s Op.shutdown).runningTasks
      = s.runningTasks.filter (fun id => id ∉ s.stopListeners) := rfl
  rw [hstep]
  rw [List.filter_eq_nil_iff]
  intro a ha
  simp only [decide_not, Bool.not_eq_true', decide_eq_false_iff_not, not_not]
  exact (h.1 a ha).1

/-- C2: a successful `async_setup_entry` constructs exactly one `Account`,
built from the entry's stored username and password, and the three
coordinators it stores in `hass.data` (device, trip, subscription) all
carry that same account. -/
theorem single_account_shared (s : HassState) (e : Entry) (rd rt rs : Bool)
    (s1 : HassState) (tr : List Effect)
    (h : setupEntry s e rd rt rs = Except.ok (s1, tr)) :
    ∃ a : Account,
      tr.filterMap accountOfEffect = [a]
      ∧ alookup e.data CONF_USERNAME = some a.username
      ∧ alookup e.data CONF_PASSWORD = some a.password
      ∧ entryMapAt s1 e.entryId = some (coordDictFor a e.entryId)
      ∧ (∀ k c, alookup (coordDictFor a e.entryId) k = some c → c.account = a) := by
  obtain ⟨u, p, hu, hp, hst, htr⟩ := setupEntry_ok h
  refine ⟨⟨u, p⟩, ?_, ?_, ?_, ?_, ?_⟩
  · rw [htr]
    rfl
  · rw [← (migrate_lookup_ne e CONF_USERNAME (by decide)).1]
    exact hu
  · rw [← (migrate_lookup_ne e CONF_PASSWORD (by decide)).1]
    exact hp
  · rw [hst, entryMapAt_setupState, if_pos rfl]
  · intro k c hkc
    simp only [coordDictFor, alookup] at hkc
    split_ifs at hkc with h1 h2 h3
    · injection hkc with hkc
      rw [← hkc]
    · injection hkc with hkc
      rw [← hkc]
    · injection hkc with hkc
      rw [← hkc]

/-- C3: the push background task is started by `async_setup_entry`, and
from any host state reachable by lifecycle operations it is stopped by a
successful `async_unload_entry` of its entry and by the
`EVENT_HOMEASSISTANT_STOP` event, after which no task remains running. -/
theorem background_task_lifecycle (ops : List Op) (id : String) :
    id ∉ (step (runOps emptyHass ops) (Op.unload id true)).runningTasks
    ∧ (step (runOps emptyHass ops) Op.shutdown).runningTasks = []
    ∧ (∀ (s : HassState) (e : Entry) (rd rt rs : Bool) (s1 : HassState)
        (tr : List Effect),
        setupEntry s e rd rt rs = Except.ok (s1, tr) →
        e.entryId ∈ s1.runningTasks ∧ Effect.startTask e.entryId ∈ tr) := by
  refine ⟨not_running_after_unload _ (taskInv_runOps emptyHass ops taskInv_empty) id,
    no_task_after_shutdown _ (taskInv_runOps emptyHass ops taskInv_empty), ?_⟩
  intro s e rd rt rs s1 tr h
  obtain ⟨u, p, hu, hp, hst, htr⟩ := setupEntry_ok h
  constructor
  · rw [hst]
    show e.entryId ∈ (if e.entryId ∈ s.runningTasks then s.runningTasks
      else e.entryId :: s.runningTasks)
    by_cases hm : e.entryId ∈ s.runningTasks
    · rw [if_pos hm]
      exact hm
    · rw [if_neg hm]
      exact List.mem_cons_self _ _
  · rw [htr]
    simp [setupTrace]

/-- C4: setting an entry up and then unloading it successfully removes
its mapping from `hass.data[DOMAIN]` again. -/
theorem setup_unload_roundtrip (s : HassState) (e : Entry) (rd rt rs : Bool)
    (s1 : HassState) (tr : List Effect)
    (h : setupEntry s e rd rt rs = Except.ok (s1, tr)) :
    ∃ s2 tr2, unloadEntry s1 e.entryId true = Except.ok (true, s2, tr2)
      ∧ entryMapAt s2 e.entryId = none := by
  obtain ⟨u, p, hu, hp, hst, htr⟩ := setupEntry_ok h
  subst hst
  have hd : alookup (setupState s e u p).hassData DOMAIN
      = some (aset ((alookup s.hassData DOMAIN).getD []) e.entryId
          (coordDictFor ⟨u, p⟩ e.entryId)) := alookup_aset_self _ _ _
  have he : alookup (aset ((alookup s.hassData DOMAIN).getD []) e.entryId
        (coordDictFor ⟨u, p⟩ e.entryId)) e.entryId
      = some (coordDictFor ⟨u, p⟩ e.entryId) := alookup_aset_self _ _ _
  have hc : alookup (coordDictFor (⟨u, p⟩ : Account) e.entryId) DATA_DEVICE
      = some ⟨CoordKind.device, ⟨u, p⟩, e.entryId⟩ := rfl
  refine ⟨_, _, unloadEntry_ok_of hd he hc, ?_⟩
  rw [entryMapAt_pop_state hd, if_pos rfl]

/-- C6: a successful `async_setup_entry` registers exactly one platform
list, namely binary sensor, device tracker, sensor and switch, and no
other platform. -/
theorem four_platforms_registered (s : HassState) (e : Entry) (rd rt rs : Bool)
    (s1 : HassState) (tr : List Effect)
    (h : setupEntry s e rd rt rs = Except.ok (s1, tr)) :
    tr.filterMap platformsOfEffect = [PLATFORMS]
    ∧ PLATFORMS = [Platform.binarySensor, Platform.deviceTracker,
        Platform.sensor, Platform.switch] := by
  obtain ⟨u, p, hu, hp, hst, htr⟩ := setupEntry_ok h
  subst htr
  exact ⟨rfl, rfl⟩

/-- Whether a lifecycle operation is the one that writes or removes the
`hass.data[DOMAIN]` mapping of the given entry id: its own setup, or its
own successful platform unload. -/
def opTouches : Op → String → Prop
  | Op.setup e _ _ _, id => e.entryId = id
  | Op.unload id' ok, id => id' = id ∧ ok = true
  | Op.shutdown, _ => False

/-- C7: `async_setup_entry` stores under `hass.data[DOMAIN][entry_id]`
the dict mapping `DATA_DEVICE`, `DATA_TRIP` and `DATA_SUBSCRIPTION` to
the entry's three coordinators, and every lifecycle operation other than
that entry's own setup or successful unload preserves the mapping. -/
theorem coordinators_in_hass_data :
    (∀ (s : HassState) (e : Entry) (rd rt rs : Bool) (s1 : HassState)
      (tr : List Effect),
      setupEntry s e rd rt rs = Except.ok (s1, tr) →
      ∃ a, entryMapAt s1 e.entryId = some (coordDictFor a e.entryId)
        ∧ alookup (coordDictFor a e.entryId) DATA_DEVICE
            = some ⟨CoordKind.device, a, e.entryId⟩
        ∧ alookup (coordDictFor a e.entryId) DATA_TRIP
            = some ⟨CoordKind.trip, a, e.entryId⟩
        ∧ alookup (coordDictFor a e.entryId) DATA_SUBSCRIPTION
            = some ⟨CoordKind.subscription, a, e.entryId⟩)
    ∧ (∀ (s : HassState) (op : Op) (id : String), ¬ opTouches op id →
      entryMapAt (step s op) id = entryMapAt s id) := by
  constructor
  · intro s e rd rt rs s1 tr h
    obtain ⟨u, p, hu, hp, hst, htr⟩ := setupEntry_ok h
    subst hst
    exact ⟨⟨u, p⟩, by rw [entryMapAt_setupState, if_pos rfl], rfl, rfl, rfl⟩
  · intro s op id hop
    cases op with
    | setup e rd rt rs =>
      cases hs : setupEntry s e rd rt rs with
      | error err => simp [step, hs]
      | ok pr =>
        obtain ⟨s1, tr⟩ := pr
        obtain ⟨u, p, hu, hp, hst, htr⟩ := setupEntry_ok hs
        have hstep : step s (Op.setup e rd rt rs) = s1 := by
          simp [step, hs]
        rw [hstep, hst, entryMapAt_setupState, if_neg (fun hx => hop hx.symm)]
    | unload id' ok =>
      cases ok with
      | false => simp [step, unloadEntry]
      | true =>
        have hne : id' ≠ id := fun hx => hop ⟨hx, rfl⟩
        cases hd : alookup s.hassData DOMAIN with
        | none => simp [step, unloadEntry, hd]
        | some dm =>
          cases he : alookup dm id' with
          | none => simp [step, unloadEntry, hd, he]
          | some coords =>
            cases hc : alookup coords DATA_DEVICE with
            | none =>
              have hstep : step s (Op.unload id' true)
                  = { s with hassData := aset s.hassData DOMAIN (apop dm id') } := by
                simp [step, unloadEntry, hd, he, hc]
              rw [hstep, entryMapAt_pop_state hd, if_neg (fun hx => hne hx.symm)]
            | some c =>
              have hstep : step s (Op.unload id' true) = { s with
                  hassData := aset s.hassData DOMAIN (apop dm id'),
                  runningTasks := s.runningTasks.filter (fun i => i ≠ c.entryId) } := by
                simp [step, unloadEntry_ok_of hd he hc]
              rw [hstep, entryMapAt_pop_state hd, if_neg (fun hx => hne hx.symm)]
    | shutdown => rfl

/-- C10: when the platform unload step reports failure,
`async_unload_entry` returns `False` and performs no state change at all:
`hass.data` keeps the entry's coordinator mapping and the background task
keeps running (no `stopTask` effect is emitted). -/
theorem unload_failure_keeps_state (s : HassState) (id : String) :
    unloadEntry s id false
      = Except.ok (false, s, [Effect.unloadPlatformsFor PLATFORMS]) := rfl

/-- Concrete entry used by the lifecycle witnesses. -/
def entryW : Entry :=
  ⟨"e1", [(CONF_USERNAME, Value.str "alice"), (CONF_PASSWORD, Value.str "pw")],
   [(CONF_READ_ONLY, Value.bool false)]⟩

/-- Result of setting `entryW` up on an empty host. -/
def setupResW : HassState × List Effect :=
  ((setupEntry emptyHass entryW true true true).toOption).getD (emptyHass, [])

/-- C2 witness at `entryW` on the empty host. -/
theorem single_account_shared_witness :
    ∃ a : Account,
      setupResW.2.filterMap accountOfEffect = [a]
      ∧ alookup entryW.data CONF_USERNAME = some a.username
      ∧ alookup entryW.data CONF_PASSWORD = some a.password
      ∧ entryMapAt setupResW.1 entryW.entryId = some (coordDictFor a entryW.entryId)
      ∧ (∀ k c, alookup (coordDictFor a entryW.entryId) k = some c → c.account = a) :=
  single_account_shared emptyHass entryW true true true setupResW.1 setupResW.2 rfl

/-- C3 witness: the setup half applied at `entryW` on the empty host. -/
theorem background_task_lifecycle_witness :
    entryW.entryId ∈ setupResW.1.runningTasks
    ∧ Effect.startTask entryW.entryId ∈ setupResW.2 :=
  (background_task_lifecycle [] "x").2.2 emptyHass entryW true true true
    setupResW.1 setupResW.2 rfl

/-- C4 witness at `entryW` on the empty host. -/
theorem setup_unload_roundtrip_witness :
    ∃ s2 tr2, unloadEntry setupResW.1 entryW.entryId true
        = Except.ok (true, s2, tr2)
      ∧ entryMapAt s2 entryW.entryId = none :=
  setup_unload_roundtrip emptyHass entryW true true true setupResW.1 setupResW.2 rfl

/-- C6 witness at `entryW` on the empty host. -/
theorem four_platforms_registered_witness :
    setupResW.2.filterMap platformsOfEffect = [PLATFORMS]
    ∧ PLATFORMS = [Platform.binarySensor, Platform.deviceTracker,
        Platform.sensor, Platform.switch] :=
  four_platforms_registered emptyHass entryW true true true setupResW.1 setupResW.2 rfl

/-- C7 witness: establishment at `entryW` and preservation under a
shutdown event. -/
theorem coordinators_in_hass_data_witness :
    (∃ a, entryMapAt setupResW.1 entryW.entryId = some (coordDictFor a entryW.entryId)
      ∧ alookup (coordDictFor a entryW.entryId) DATA_DEVICE
          = some ⟨CoordKind.device, a, entryW.entryId⟩
      ∧ alookup (coordDictFor a entryW.entryId) DATA_TRIP
          = some ⟨CoordKind.trip, a, entryW.entryId⟩
      ∧ alookup (coordDictFor a entryW.entryId) DATA_SUBSCRIPTION
          = some ⟨CoordKind.subscription, a, entryW.entryId⟩)
    ∧ entryMapAt (step emptyHass Op.shutdown) "w7" = entryMapAt emptyHass "w7" :=
  ⟨coordinators_in_hass_data.1 emptyHass entryW true true true
      setupResW.1 setupResW.2 rfl,
   coordinators_in_hass_data.2 emptyHass Op.shutdown "w7" (fun hx => hx)⟩

/-- Vendor SDK device object. The entity base class only ever reads `id`
and `name`; the further fields stand for the rest of the vendor object's
surface and let that be stated. -/
structure Device where
  id : String
  name : String
  batteryLevel : Int
  speed : Int
  isAlarmTriggered : Bool
  isStolen : Bool
deriving DecidableEq, Repr

/-- The host framework's `DeviceInfo` presentation record, restricted to
the fields this integration fills in. -/
structure DeviceInfo where
  identifiers : List (String × String)
  model : String
  name : String
deriving DecidableEq, Repr

/-- State of a `BikeTraxBaseEntity` after `__init__`: the stored
coordinator and device references plus the presentation attributes. -/
structure BikeTraxBaseEntity where
  coordinator : Coordinator
  device : Device
  attrs : List (String × String)
  attr_device_info : DeviceInfo
deriving DecidableEq, Repr

/-- Embedding of `BikeTraxBaseEntity.__init__`. -/
def BikeTraxBaseEntity.init (c : Coordinator) (d : Device) : BikeTraxBaseEntity :=
  { coordinator := c
    device := d
    attrs := [("id", d.id), ("name", d.name)]
    attr_device_info :=
      { identifiers := [(DOMAIN, d.id)], model := d.name, name := d.name } }

/-- C5: the entity base class copies exactly the device's `id` and `name`
into its presentation attributes: `_attrs` holds the two fields,
`_attr_device_info` uses `(DOMAIN, id)` as identifier and `name` as both
model and name, and the presentation attributes agree for any two devices
sharing `id` and `name` (no other device field is read for them). -/
theorem base_entity_presentation (c : Coordinator) (d dAlt : Device) :
    (BikeTraxBaseEntity.init c d).attrs = [("id", d.id), ("name", d.name)]
    ∧ (BikeTraxBaseEntity.init c d).attr_device_info
        = { identifiers := [(DOMAIN, d.id)], model := d.name, name := d.name }
    ∧ (d.id = dAlt.id → d.name = dAlt.name →
        (BikeTraxBaseEntity.init c d).attrs = (BikeTraxBaseEntity.init c dAlt).attrs
        ∧ (BikeTraxBaseEntity.init c d).attr_device_info
            = (BikeTraxBaseEntity.init c dAlt).attr_device_info) := by
  refine ⟨rfl, rfl, ?_⟩
  intro hid hname
  unfold BikeTraxBaseEntity.init
  rw [hid, hname]
  exact ⟨rfl, rfl⟩

/-- Concrete coordinator for the C5 witness. -/
def coordW : Coordinator :=
  ⟨CoordKind.device, ⟨Value.str "u", Value.str "p"⟩, "e1"⟩

/-- Concrete device for the C5 witness. -/
def devW : Device := ⟨"d1", "BikeTrax", 50, 0, false, false⟩

/-- Second concrete device: same `id` and `name` as `devW`, all other
fields different. -/
def devW2 : Device := ⟨"d1", "BikeTrax", 7, 25, true, true⟩

/-- C5 witness: the presentation attributes at `devW`, and their
agreement with `devW2`. -/
theorem base_entity_presentation_witness :
    (BikeTraxBaseEntity.init coordW devW).attrs = [("id", devW.id), ("name", devW.name)]
    ∧ (BikeTraxBaseEntity.init coordW devW).attrs
        = (BikeTraxBaseEntity.init coordW devW2).attrs
    ∧ (BikeTraxBaseEntity.init coordW devW).attr_device_info
        = (BikeTraxBaseEntity.init coordW devW2).attr_device_info := by
  have h := base_entity_presentation coordW devW devW2
  exact ⟨h.1, (h.2.2 rfl rfl).1, (h.2.2 rfl rfl).2⟩

end BikeTrax
